import Mathlib

/-!
Shallow embedding of `appleLoops.py` (class `AppleLoops`), covering the
manifest builder (`process_plist`, `add_loop`, `build_url`), the completeness
oracle (`file_exists`), the duplicate locator (`duplicate_file`,
`copy_duplicate`), and the download orchestration (`download`,
`main_processor`), together with theorems settling the spec claims.

Conventions of the embedding:
* Python strings become `String`; the feed sizes, which in Python are either
  plist integers or header strings, become `SizeVal`.
* The filesystem is an explicit state `FS`: an association list of files
  (path, size, st_blksize), the list of directories matched by the
  three-level glob, and the block size given to newly created files.
* Network effects are oracles: `probe : String -> Option String` stands for
  the Content-Length HEAD-style probe (`none` = the request raised), and
  `net : Loop -> List Nat` gives the chunk lengths a download stream yields.
* Directory paths are kept without the trailing slash that Python glob
  returns; `os.path.join path name` on such a path is `path ++ "/" ++ name`,
  written `pjoin`.
-/

namespace AppleLoops

/-- Size value as carried by the Python code: either a plist integer
(`DownloadSize`) or a string (Content-Length header, or a string in the
plist). -/
inductive SizeVal where
  | intV (n : Nat)
  | strV (s : String)
deriving DecidableEq, Repr

/-- The `Loop` named tuple from `__init__`. -/
structure Loop where
  pkg_name : String
  pkg_url : String
  pkg_mandatory : Bool
  pkg_size : SizeVal
  pkg_year : String
  pkg_loop_for : String
  pkg_plist : String
deriving DecidableEq, Repr

/-- The configuration state set up in `__init__` that the modelled methods
read: `caching_server` as stored (already right-stripped of slashes; `none`
when no caching server argument was given), and the two filter flags. -/
structure Config where
  caching_server : Option String
  mandatory_pkg : Bool
  optional_pkg : Bool
deriving DecidableEq, Repr

/-- Split a character list at every occurrence of the separator character
(Python `s.split(sep)` for a one-character separator). -/
def splitOnChar (sep : Char) : List Char → List (List Char)
  | [] => [[]]
  | c :: rest =>
      if c = sep then [] :: splitOnChar sep rest
      else
        match splitOnChar sep rest with
        | [] => [[c]]
        | g :: gs => (c :: g) :: gs

/-- Python `s.split(sep)` for a one-character separator, on strings. -/
def strSplitOnChar (sep : Char) (s : String) : List String :=
  (splitOnChar sep s.data).map String.mk

/-- Prefix test on character lists (kernel-reducible form of
`List.isPrefixOf`). -/
def isPrefixL : List Char → List Char → Bool
  | [], _ => true
  | _ :: _, [] => false
  | a :: as, b :: bs => decide (a = b) && isPrefixL as bs

/-- Python `s.startswith(pre)`. -/
def strStartsWith (s pre : String) : Bool := isPrefixL pre.data s.data

/-- Python `s.endswith(post)`. -/
def strEndsWith (s post : String) : Bool :=
  isPrefixL post.data.reverse s.data.reverse

/-- Python `s[n:]` (drop the first `n` characters). -/
def strDrop (s : String) (n : Nat) : String := String.mk (s.data.drop n)

/-- Python `s.strip()`: remove leading and trailing whitespace. -/
def strStrip (s : String) : String :=
  String.mk
    (((s.data.dropWhile Char.isWhitespace).reverse.dropWhile
        Char.isWhitespace).reverse)

/-- Digit-string accumulator for `strToNat`. -/
def toNatGo : List Char → Nat → Option Nat
  | [], acc => some acc
  | c :: rest, acc =>
      if c.isDigit then toNatGo rest (acc * 10 + (c.toNat - 48)) else none

/-- Python `int(s)` for a decimal digit string (`none` when the string is
not a plain nonempty digit string). -/
def strToNat (s : String) : Option Nat :=
  match s.data with
  | [] => none
  | l => toNatGo l 0

/-- Python `s.replace(".", "")`. -/
def removeDots (s : String) : String :=
  String.mk (s.data.filter (fun c => !decide (c = '.')))

/-- Python `"".join(c for c in s if c not in "0123456789")`, the lambda in
`process_plist` that strips digits from the product-family name. -/
def removeDigits (s : String) : String :=
  String.mk (s.data.filter (fun c => !c.isDigit))

/-- Join strings with a one-character separator (Python `sep.join(parts)`). -/
def intercalateChar (sep : Char) : List String → String
  | [] => ""
  | [a] => a
  | a :: rest => a ++ String.mk [sep] ++ intercalateChar sep rest

/-- Python `os.path.splitext(s)[0]`: everything before the last dot (the
plist names used here have no directory part). -/
def splitext_root (s : String) : String :=
  if (strSplitOnChar '.' s).length ≤ 1 then s
  else intercalateChar '.' (strSplitOnChar '.' s).dropLast

/-- Python `os.path.basename(s)`: the part after the last slash. -/
def basename (s : String) : String :=
  (strSplitOnChar '/' s).getLastD ""

/-- Python `s[-4:]`: the last four characters (the whole string when
shorter). -/
def lastN (n : Nat) (s : String) : String :=
  String.mk (s.data.drop (s.data.length - n))

/-- Python `os.path.join dir name` for a relative `name` (trailing-slash
free convention for `dir`). -/
def pjoin (dir name : String) : String := dir ++ "/" ++ name

/-- Substring containment on character lists. -/
def containsL (sub : List Char) : List Char → Bool
  | [] => isPrefixL sub []
  | c :: rest => isPrefixL sub (c :: rest) || containsL sub rest

/-- Python `sub in s` (substring containment). -/
def containsStr (sub s : String) : Bool := containsL sub.data s.data

/-- Python `urlparse(u).netloc` for the absolute `http://host/...` URLs
used here: the third slash-separated component. -/
def urlparse_netloc (u : String) : String :=
  (strSplitOnChar '/' u).getD 2 ""

/-- `self.base_url` from `__init__`. -/
def base_url : String :=
  "http://audiocontentdownload.apple.com/lp10_ms3_content_"

/-- `self.source_url` from `__init__` (set when a caching server is
configured). -/
def source_url : String := "?source=" ++ urlparse_netloc base_url

/-- `self.cache_base_url` from `__init__`. -/
def cache_base_url (caching_server : String) : String :=
  caching_server ++ "/lp10_ms3_content_"

/-- Python `seperator.join([a, b])` with `seperator = "/"` as used in
`build_url`. -/
def pyjoin2 (sep a b : String) : String := a ++ sep ++ b

/-- `AppleLoops.build_url`: the URL resolver.  The Python condition
`self.caching_server and filename.endswith(".pkg")` tests truthiness of the
stored string, hence the nonemptiness check. -/
def build_url (cfg : Config) (loop_year filename : String) : String :=
  match cfg.caching_server with
  | some cs =>
      if cs ≠ "" ∧ strEndsWith filename ".pkg" = true then
        pyjoin2 "/" (cache_base_url cs ++ loop_year) (filename ++ source_url)
      else
        pyjoin2 "/" (base_url ++ loop_year) filename
  | none => pyjoin2 "/" (base_url ++ loop_year) filename

/-- The size clean-up at the top of `add_loop`: `package_size.replace(".",
"")` succeeds on strings; on integers the `AttributeError` is swallowed. -/
def sizeNormalize : SizeVal → SizeVal
  | .strV s => .strV (removeDots s)
  | .intV n => .intV n

/-- Python `int(size)` as applied by `file_exists` to `loop.pkg_size`.
Feed sizes are numeric; `int()` raising on a malformed string is outside the
modelled inputs (the fallback `0` is never reached by the records
considered in the theorems below). -/
def sizeNat : SizeVal → Nat
  | .intV n => n
  | .strV s => (strToNat s).getD 0

/-- `AppleLoops.add_loop`: normalize the size, build the tuple, append it to
the master list unless an equal tuple is already present. -/
def add_loop (master : List Loop) (package_name package_url : String)
    (package_mandatory : Bool) (package_size : SizeVal)
    (package_year loop_for plist : String) : List Loop :=
  let package_size := sizeNormalize package_size
  let loop : Loop :=
    { pkg_name := package_name
      pkg_url := package_url
      pkg_mandatory := package_mandatory
      pkg_size := package_size
      pkg_year := package_year
      pkg_loop_for := loop_for
      pkg_plist := plist }
  if loop ∈ master then master else master ++ [loop]

/-- One entry of `data["Packages"]` in a sub-feed plist, with the fields
`process_plist` reads: `DownloadName`, the optional `IsMandatory`, and
`DownloadSize`. -/
structure PkgEntry where
  downloadName : String
  isMandatory : Option Bool
  downloadSize : SizeVal
deriving DecidableEq, Repr

/-- Net effect of the legacy-path correction on the name in
`process_plist`: when `DownloadName` starts with `../`, reduce it to its
basename. -/
def resolved_name (entry : PkgEntry) : String :=
  if strStartsWith entry.downloadName "../" then basename entry.downloadName
  else entry.downloadName

/-- Net effect of the legacy-path correction on the URL in `process_plist`:
when `DownloadName` starts with `../`, the URL built by `build_url` is
overwritten with the fixed legacy origin path (the name minus the `../`
marker). -/
def resolved_url (cfg : Config) (loop_year : String) (entry : PkgEntry) :
    String :=
  if strStartsWith entry.downloadName "../" then
    "http://audiocontentdownload.apple.com/" ++ strDrop entry.downloadName 3
  else build_url cfg loop_year entry.downloadName

/-- The year list comprehension of `process_plist`: the first segment of
`url.split("/")` containing `lp10_ms3` (indexing `[0]` into an empty list
raises, hence `Option`). -/
def marker_segment (url : String) : Option String :=
  ((strSplitOnChar '/' url).filter (fun x => containsStr "lp10_ms3" x)).head?

/-- The Content-Length probe of `process_plist`: on success the stripped
header string is used, on any failure the catalog-declared `DownloadSize`.
`probe` is the network oracle (`none` = the request or header access
raised). -/
def resolve_size (probe : String → Option String) (url : String)
    (declared : SizeVal) : SizeVal :=
  match probe url with
  | some s => .strV (strStrip s)
  | none => declared

/-- The mandatory/optional filter block at the end of the `process_plist`
package loop, verbatim: the `if/elif/else pass` chain followed by the
separate unfiltered `if`. -/
def filter_insert (cfg : Config) (master : List Loop) (name url : String)
    (mandatory : Bool) (size : SizeVal) (year loop_for plist : String) :
    List Loop :=
  let master1 :=
    if cfg.mandatory_pkg && !cfg.optional_pkg then
      (if mandatory then add_loop master name url mandatory size year loop_for plist
       else master)
    else if cfg.optional_pkg && !cfg.mandatory_pkg then
      (if !mandatory then add_loop master name url mandatory size year loop_for plist
       else master)
    else master
  if !cfg.mandatory_pkg && !cfg.optional_pkg then
    add_loop master1 name url mandatory size year loop_for plist
  else master1

/-- One iteration of the `for pkg in data["Packages"]` loop of
`process_plist`: resolve name and URL (with legacy correction), read
mandatoriness (absent key means `False`), re-derive the year from the URL,
resolve the size via the probe, and run the filter block.  `Except.error`
is the `IndexError` of the year comprehension when no URL segment contains
the catalog marker. -/
def process_package (cfg : Config) (loop_year plist loop_for : String)
    (probe : String → Option String) (master : List Loop)
    (entry : PkgEntry) : Except Unit (List Loop) :=
  let name := resolved_name entry
  let url := resolved_url cfg loop_year entry
  let mandatory := entry.isMandatory.getD false
  match marker_segment url with
  | none => .error ()
  | some seg =>
      let year := lastN 4 seg
      let size := resolve_size probe url entry.downloadSize
      .ok (filter_insert cfg master name url mandatory size year loop_for plist)

/-- `AppleLoops.process_plist` restricted to its manifest-building effect:
fold the package loop over the decoded feed entries, starting from the
current master list.  `_plist` and `loop_for` are derived from the plist
filename exactly as in the source. -/
def process_plist (cfg : Config) (loop_year plist : String)
    (probe : String → Option String) (packages : List PkgEntry)
    (master : List Loop) : Except Unit (List Loop) :=
  let plistBase := splitext_root plist
  let loop_for := removeDigits (splitext_root plist)
  packages.foldlM
    (fun m e => process_package cfg loop_year plistBase loop_for probe m e)
    master

/-- Insertion with the filter removed: every entry goes through `add_loop`.
This is the comparison definition for the unfiltered-union part of the
filter-correctness claim, following the words of the spec ("neither flag =>
manifest equals the unfiltered union"). -/
def unfiltered_insert (master : List Loop) (name url : String)
    (mandatory : Bool) (size : SizeVal) (year loop_for plist : String) :
    List Loop :=
  add_loop master name url mandatory size year loop_for plist

/-- `process_package` with the filter block replaced by unconditional
insertion (spec comparison definition). -/
def process_package_unfiltered (cfg : Config)
    (loop_year plist loop_for : String) (probe : String → Option String)
    (master : List Loop) (entry : PkgEntry) : Except Unit (List Loop) :=
  let name := resolved_name entry
  let url := resolved_url cfg loop_year entry
  let mandatory := entry.isMandatory.getD false
  match marker_segment url with
  | none => .error ()
  | some seg =>
      let year := lastN 4 seg
      let size := resolve_size probe url entry.downloadSize
      .ok (unfiltered_insert master name url mandatory size year loop_for plist)

/-- `process_plist` with unconditional insertion (spec comparison
definition for the unfiltered union). -/
def process_plist_unfiltered (cfg : Config) (loop_year plist : String)
    (probe : String → Option String) (packages : List PkgEntry)
    (master : List Loop) : Except Unit (List Loop) :=
  let plistBase := splitext_root plist
  let loop_for := removeDigits (splitext_root plist)
  packages.foldlM
    (fun m e =>
      process_package_unfiltered cfg loop_year plistBase loop_for probe m e)
    master

/-- Metadata of one local file: `os.path.getsize` and `os.stat().st_blksize`. -/
structure FileInfo where
  size : Nat
  st_blksize : Nat
deriving DecidableEq, Repr

/-- The local filesystem state: the existing files (path to metadata), the
directories matched by the three-level glob
`glob("<download_location>/*/*/*/")` (trailing slashes dropped), and the
block size newly written files get. -/
structure FS where
  leafDirs : List String
  files : List (String × FileInfo)
  blk : Nat
deriving DecidableEq, Repr

/-- `os.path.exists` combined with `stat`/`getsize`: the metadata of the
file at `p`, or `none` when no file exists there. -/
def lookupFile (fs : FS) (p : String) : Option FileInfo :=
  (fs.files.find? (fun e => decide (e.1 = p))).map (fun e => e.2)

/-- Python truthiness of an `Option Bool` (`None` and `False` are falsy),
as applied by every caller of `file_exists`. -/
def truthy : Option Bool → Bool
  | some b => b
  | none => false

/-- `AppleLoops.file_exists`: the completeness oracle.  When a file exists
at `local_file`, compare truncated block counts of the local size and the
declared remote size; when no file exists, the Python function falls off
the end and returns `None`. -/
def file_exists (fs : FS) (loop : Loop) (local_file : String) :
    Option Bool :=
  match lookupFile fs local_file with
  | none => none
  | some fi =>
      let block_size := fi.st_blksize
      let remote_blocks := sizeNat loop.pkg_size / block_size
      let local_blocks := fi.size / block_size
      some (decide (remote_blocks ≤ local_blocks))

/-- `AppleLoops.duplicate_file`: iterate the glob result, but both branches
of the first iteration return, so only the first directory is ever
examined; an empty glob falls off the end (`None`). -/
def duplicate_file (fs : FS) (loop : Loop) : Option Bool :=
  match fs.leafDirs with
  | [] => none
  | path :: _ =>
      some (truthy (file_exists fs loop (pjoin path loop.pkg_name)))

/-- `AppleLoops.local_directory`: `<root>/<pkg_plist>/<mandatory|optional>`. -/
def local_directory (root : String) (loop : Loop) : String :=
  let directory_path := pjoin root loop.pkg_plist
  if loop.pkg_mandatory then pjoin directory_path "mandatory"
  else pjoin directory_path "optional"

/-- `AppleLoops.make_storage_location` on the state: record the directory
(a glob-visible leaf) if it does not exist yet. -/
def mkdirs (fs : FS) (d : String) : FS :=
  if d ∈ fs.leafDirs then fs else { fs with leafDirs := fs.leafDirs ++ [d] }

/-- Create or overwrite the file at `p` with metadata `fi`. -/
def setFile (fs : FS) (p : String) (fi : FileInfo) : FS :=
  { fs with files := (p, fi) :: fs.files.filter (fun e => !decide (e.1 = p)) }

/-- The scan half of `copy_duplicate`: walk the glob result for the first
directory holding a satisfying copy; outside dry-run mode, create the
target directory and copy the file (`shutil.copy2` preserves the size
metadata).  The inner `none` branch is unreachable: a directory is found
only when `file_exists` returned `True`, so the source file exists. -/
def copy_scan (dry : Bool) (fs : FS) (root : String) (loop : Loop) : FS :=
  match fs.leafDirs.find?
      (fun p => truthy (file_exists fs loop (pjoin p loop.pkg_name))) with
  | none => fs
  | some p =>
      if dry then fs
      else
        let dir := local_directory root loop
        let fs1 := mkdirs fs dir
        match lookupFile fs1 (pjoin p loop.pkg_name) with
        | some fi => setFile fs1 (pjoin dir loop.pkg_name) fi
        | none => fs1

/-- `AppleLoops.copy_duplicate` on the state: skip when the target is
already complete, otherwise scan and (outside dry-run) copy. -/
def copy_duplicate (dry : Bool) (fs : FS) (root : String) (loop : Loop) :
    FS :=
  let local_file := pjoin (local_directory root loop) loop.pkg_name
  if truthy (file_exists fs loop local_file) then fs
  else copy_scan dry fs root loop

/-- Effects the tail of a completed download performs, in order: the
`finally` block closes the request and appends to `download_amount`, then
the `else` clause sleeps `uniform(1, 2)` seconds. -/
inductive DlEvent where
  | closeReq
  | recordAmount (n : Nat)
  | pauseUniform (lo hi : Nat)
deriving DecidableEq, Repr

/-- Result of one `download` call: the filesystem, the `download_amount`
ledger, and the effect trace of the completed stream. -/
structure DlResult where
  fs : FS
  amounts : List Nat
  events : List DlEvent
deriving DecidableEq, Repr

/-- `AppleLoops.download` on the state.  `chunks` are the buffer lengths
the network stream yields (so `chunks.sum` is `bytes_so_far` at stream
end).  Outside dry-run mode: make the directory, and unless the target is
already complete, write the streamed bytes and run the completion tail,
which appends `float(loop.pkg_size)` — the declared size — to
`download_amount` and pauses.  In dry-run mode: no filesystem effect;
append the declared size for a target that is not complete. -/
def download (dry : Bool) (fs : FS) (root : String) (loop : Loop)
    (amounts : List Nat) (chunks : List Nat) : DlResult :=
  let dir := local_directory root loop
  let local_file := pjoin dir loop.pkg_name
  if !dry then
    let fs1 := mkdirs fs dir
    if !truthy (file_exists fs1 loop local_file) then
      let bytes_so_far := chunks.sum
      let fs2 := setFile fs1 local_file ⟨bytes_so_far, fs1.blk⟩
      { fs := fs2
        amounts := amounts ++ [sizeNat loop.pkg_size]
        events := [.closeReq, .recordAmount (sizeNat loop.pkg_size),
                   .pauseUniform 1 2] }
    else { fs := fs1, amounts := amounts, events := [] }
  else
    if !truthy (file_exists fs loop local_file) then
      { fs := fs, amounts := amounts ++ [sizeNat loop.pkg_size], events := [] }
    else { fs := fs, amounts := amounts, events := [] }

/-- State threaded through the `main_processor` download loop. -/
structure RunState where
  fs : FS
  amounts : List Nat
deriving DecidableEq, Repr

/-- One iteration of the `for loop in self.master_list` loop of
`main_processor`: duplicates are copied, everything else is downloaded.
`net` is the stream oracle. -/
def main_step (dry : Bool) (root : String) (net : Loop → List Nat)
    (st : RunState) (loop : Loop) : RunState :=
  if truthy (duplicate_file st.fs loop) then
    { st with fs := copy_duplicate dry st.fs root loop }
  else
    let r := download dry st.fs root loop st.amounts (net loop)
    { fs := r.fs, amounts := r.amounts }

/-- The `main_processor` download loop over a resolved master list,
starting from an empty `download_amount` ledger. -/
def main_run (dry : Bool) (root : String) (fs : FS) (loops : List Loop)
    (net : Loop → List Nat) : RunState :=
  loops.foldl (main_step dry root net) { fs := fs, amounts := [] }

/-! ## Shared lemmas -/

theorem truthy_eq_true {r : Option Bool} : truthy r = true ↔ r = some true := by
  cases r with
  | none => simp [truthy]
  | some b => cases b <;> simp [truthy]

theorem mem_add_loop {master : List Loop} {l : Loop}
    {name url : String} {mand : Bool} {size : SizeVal} {year lf pl : String}
    (h : l ∈ add_loop master name url mand size year lf pl) :
    l ∈ master ∨
      l = { pkg_name := name, pkg_url := url, pkg_mandatory := mand,
            pkg_size := sizeNormalize size, pkg_year := year,
            pkg_loop_for := lf, pkg_plist := pl } := by
  simp only [add_loop] at h
  split at h
  · exact Or.inl h
  · rcases List.mem_append.mp h with h1 | h1
    · exact Or.inl h1
    · exact Or.inr (List.mem_singleton.mp h1)

theorem mem_filter_insert {cfg : Config} {master : List Loop} {l : Loop}
    {name url : String} {mand : Bool} {size : SizeVal} {year lf pl : String}
    (h : l ∈ filter_insert cfg master name url mand size year lf pl) :
    l ∈ master ∨
      l = { pkg_name := name, pkg_url := url, pkg_mandatory := mand,
            pkg_size := sizeNormalize size, pkg_year := year,
            pkg_loop_for := lf, pkg_plist := pl } := by
  simp only [filter_insert] at h
  split_ifs at h
  all_goals
    first
      | exact Or.inl h
      | (rcases mem_add_loop h with h1 | h1
         · exact Or.inl h1
         · exact Or.inr h1)
      | (rcases mem_add_loop h with h1 | h1
         · rcases mem_add_loop h1 with h2 | h2
           · exact Or.inl h2
           · exact Or.inr h2
         · exact Or.inr h1)

theorem filter_insert_mand {cfg : Config} (hm : cfg.mandatory_pkg = true)
    (ho : cfg.optional_pkg = false) (master : List Loop) (name url : String)
    (mand : Bool) (size : SizeVal) (year lf pl : String) :
    filter_insert cfg master name url mand size year lf pl =
      if mand then add_loop master name url mand size year lf pl else master := by
  unfold filter_insert
  rw [hm, ho]
  simp

theorem filter_insert_opt {cfg : Config} (hm : cfg.mandatory_pkg = false)
    (ho : cfg.optional_pkg = true) (master : List Loop) (name url : String)
    (mand : Bool) (size : SizeVal) (year lf pl : String) :
    filter_insert cfg master name url mand size year lf pl =
      if mand then master else add_loop master name url mand size year lf pl := by
  unfold filter_insert
  rw [hm, ho]
  cases mand <;> simp

theorem filter_insert_none {cfg : Config} (hm : cfg.mandatory_pkg = false)
    (ho : cfg.optional_pkg = false) (master : List Loop) (name url : String)
    (mand : Bool) (size : SizeVal) (year lf pl : String) :
    filter_insert cfg master name url mand size year lf pl =
      add_loop master name url mand size year lf pl := by
  unfold filter_insert
  rw [hm, ho]
  simp

theorem mkdirs_files (fs : FS) (d : String) : (mkdirs fs d).files = fs.files := by
  unfold mkdirs
  split <;> rfl

theorem file_exists_mkdirs (fs : FS) (d : String) (loop : Loop) (p : String) :
    file_exists (mkdirs fs d) loop p = file_exists fs loop p := by
  unfold file_exists lookupFile
  rw [mkdirs_files]

/-! ## C1: completeness oracle compares truncated block counts -/

/-- C1: `file_exists` declares a candidate complete exactly when a file
exists at the path and its truncated block count is at least the truncated
block count of the declared size of the record; a missing file yields no `True`
(the function returns `None`). -/
theorem C1_file_exists_blocks (fs : FS) (loop : Loop) (local_file : String) :
    (file_exists fs loop local_file = some true ↔
      ∃ fi, lookupFile fs local_file = some fi ∧
        sizeNat loop.pkg_size / fi.st_blksize ≤ fi.size / fi.st_blksize)
    ∧ (lookupFile fs local_file = none →
        file_exists fs loop local_file = none) := by
  constructor
  · cases hl : lookupFile fs local_file with
    | none => simp [file_exists, hl]
    | some fi => simp [file_exists, hl]
  · intro h
    simp [file_exists, h]

/-- Witness for C1 at a concrete input: a local file of 8190 bytes against
a declared size of 8191 bytes on 4096-byte blocks (equal truncated block
counts, local byte size short of declared) is complete, and a missing file
is not declared complete (`None`). -/
theorem C1_file_exists_blocks_witness :
    file_exists ⟨[], [("d/f.pkg", ⟨8190, 4096⟩)], 4096⟩
        ⟨"f.pkg", "u", false, .intV 8191, "2016", "g", "p"⟩ "d/f.pkg" = some true
    ∧ file_exists ⟨[], [("d/f.pkg", ⟨8190, 4096⟩)], 4096⟩
        ⟨"f.pkg", "u", false, .intV 8191, "2016", "g", "p"⟩ "d/missing" = none := by
  constructor
  · exact (C1_file_exists_blocks _ _ _).1.mpr ⟨⟨8190, 4096⟩, by decide⟩
  · exact (C1_file_exists_blocks _ _ _).2 (by decide)

/-! ## C4: add_loop keeps the master list duplicate-free -/

/-- C4: `add_loop` preserves the no-full-value-duplicates invariant of the
master list, the (size-normalized) new record is present afterwards, and
every previously present record is kept. -/
theorem C4_add_loop_nodup (master : List Loop) (name url : String)
    (mand : Bool) (size : SizeVal) (year lf pl : String)
    (h : master.Nodup) :
    (add_loop master name url mand size year lf pl).Nodup
    ∧ ({ pkg_name := name, pkg_url := url, pkg_mandatory := mand,
         pkg_size := sizeNormalize size, pkg_year := year,
         pkg_loop_for := lf, pkg_plist := pl } : Loop)
        ∈ add_loop master name url mand size year lf pl
    ∧ ∀ l ∈ master, l ∈ add_loop master name url mand size year lf pl := by
  simp only [add_loop]
  split
  · next hmem => exact ⟨h, hmem, fun l hl => hl⟩
  · next hmem =>
      refine ⟨?_, ?_, ?_⟩
      · exact List.Nodup.append h (List.nodup_singleton _)
          (by simpa [List.disjoint_singleton] using hmem)
      · exact List.mem_append.mpr (Or.inr (List.mem_singleton.mpr rfl))
      · exact fun l hl => List.mem_append.mpr (Or.inl hl)

/-- Witness for C4 at a concrete input: adding a record differing only in
one field keeps both records and the list duplicate-free. -/
theorem C4_add_loop_nodup_witness :
    (add_loop [⟨"a.pkg", "u1", true, .intV 1, "2016", "g", "p"⟩]
        "a.pkg" "u1" true (.intV 2) "2016" "g" "p").Nodup
    ∧ (⟨"a.pkg", "u1", true, .intV 2, "2016", "g", "p"⟩ : Loop)
        ∈ add_loop [⟨"a.pkg", "u1", true, .intV 1, "2016", "g", "p"⟩]
            "a.pkg" "u1" true (.intV 2) "2016" "g" "p"
    ∧ ∀ l ∈ [(⟨"a.pkg", "u1", true, .intV 1, "2016", "g", "p"⟩ : Loop)],
        l ∈ add_loop [⟨"a.pkg", "u1", true, .intV 1, "2016", "g", "p"⟩]
              "a.pkg" "u1" true (.intV 2) "2016" "g" "p" :=
  C4_add_loop_nodup [⟨"a.pkg", "u1", true, .intV 1, "2016", "g", "p"⟩]
    "a.pkg" "u1" true (.intV 2) "2016" "g" "p" (by decide)

/-! ## C5: URL resolver -/

/-- C5: `build_url` emits `<originBase><year>/<filename>` when no caching
server is configured (or the stored server string is empty, or the filename
is not a package), and `<cacheBase><year>/<filename>?source=<originHost>`
when a caching server is configured and the filename ends in `.pkg`; the
origin host in the query string is `audiocontentdownload.apple.com`. -/
theorem C5_build_url (cfg : Config) (year filename : String) :
    ((cfg.caching_server = none ∨ cfg.caching_server = some "" ∨
        strEndsWith filename ".pkg" = false) →
      build_url cfg year filename = base_url ++ year ++ "/" ++ filename)
    ∧ (∀ cs, cfg.caching_server = some cs → cs ≠ "" →
        strEndsWith filename ".pkg" = true →
        build_url cfg year filename =
          cache_base_url cs ++ year ++ "/" ++ filename ++ source_url)
    ∧ source_url = "?source=audiocontentdownload.apple.com" := by
  refine ⟨?_, ?_, by decide⟩
  · intro h
    cases hcs : cfg.caching_server with
    | none => simp [build_url, hcs, pyjoin2]
    | some cs =>
        rcases h with h | h | h
        · rw [hcs] at h; cases h
        · rw [hcs] at h
          have : cs = "" := by injection h
          simp [build_url, hcs, pyjoin2, this]
        · simp [build_url, hcs, pyjoin2, h]
  · intro cs hcs hne hend
    simp [build_url, hcs, pyjoin2, hne, hend, String.append_assoc]

/-- Witness for C5 at the concrete input given in the spec: year `2016`, filename
`foo.pkg`, with and without a configured caching server. -/
theorem C5_build_url_witness :
    build_url ⟨none, false, false⟩ "2016" "foo.pkg" =
      base_url ++ "2016" ++ "/" ++ "foo.pkg"
    ∧ build_url ⟨some "http://cache:1234", false, false⟩ "2016" "foo.pkg" =
      cache_base_url "http://cache:1234" ++ "2016" ++ "/" ++ "foo.pkg" ++ source_url := by
  constructor
  · exact (C5_build_url ⟨none, false, false⟩ "2016" "foo.pkg").1 (Or.inl rfl)
  · exact (C5_build_url ⟨some "http://cache:1234", false, false⟩ "2016" "foo.pkg").2.1
      "http://cache:1234" rfl (by decide) (by decide)

/-! ## C2: duplicate locator only ever examines the first directory -/

/-- C2 counterexample: a satisfying copy sits in the second scanned
directory, yet `duplicate_file` reports `False`, refuting the claim that it
reports found exactly when at least one scanned directory holds a
satisfying file. -/
theorem C2_duplicate_file_counterexample :
    ¬ ((truthy (duplicate_file
          ⟨["r/a/m/x", "r/a/m/y"], [("r/a/m/y/p.pkg", ⟨100, 4096⟩)], 4096⟩
          ⟨"p.pkg", "u", false, .intV 100, "2016", "g", "a"⟩) = true) ↔
        ∃ p ∈ (⟨["r/a/m/x", "r/a/m/y"], [("r/a/m/y/p.pkg", ⟨100, 4096⟩)], 4096⟩ : FS).leafDirs,
          file_exists ⟨["r/a/m/x", "r/a/m/y"], [("r/a/m/y/p.pkg", ⟨100, 4096⟩)], 4096⟩
            ⟨"p.pkg", "u", false, .intV 100, "2016", "g", "a"⟩
            (pjoin p "p.pkg") = some true) := by
  decide

/-- C2 amended: `duplicate_file` reports found exactly when the glob result
is nonempty and its first directory holds a file with the name of the record
satisfying the completeness oracle (an empty glob yields `None`, treated as
not found). -/
theorem C2_duplicate_file_first_dir (fs : FS) (loop : Loop) :
    truthy (duplicate_file fs loop) = true ↔
      ∃ p, fs.leafDirs.head? = some p ∧
        file_exists fs loop (pjoin p loop.pkg_name) = some true := by
  cases h : fs.leafDirs with
  | nil => simp [duplicate_file, h, truthy]
  | cons p rest =>
      simp only [duplicate_file, h, List.head?_cons, truthy]
      constructor
      · intro hb
        exact ⟨p, rfl, truthy_eq_true.mp hb⟩
      · rintro ⟨q, hq, hfe⟩
        have : q = p := by injection hq.symm
        subst this
        exact truthy_eq_true.mpr hfe

/-! ## Lemmas on the process_plist fold -/

theorem foldlM_except_mem {P : Loop → Prop}
    (f : List Loop → PkgEntry → Except Unit (List Loop))
    (hf : ∀ m e out, f m e = .ok out → ∀ l ∈ out, l ∈ m ∨ P l) :
    ∀ (pkgs : List PkgEntry) (master out : List Loop),
      pkgs.foldlM f master = .ok out → ∀ l ∈ out, l ∈ master ∨ P l := by
  intro pkgs
  induction pkgs with
  | nil =>
      intro master out h l hl
      rw [List.foldlM_nil] at h
      cases h
      exact Or.inl hl
  | cons e es ih =>
      intro master out h l hl
      rw [List.foldlM_cons] at h
      cases hfe : f master e with
      | error u =>
          rw [hfe] at h
          exact Except.noConfusion h
      | ok m1 =>
          rw [hfe] at h
          have h2 : es.foldlM f m1 = .ok out := h
          rcases ih m1 out h2 l hl with h1 | h1
          · rcases hf master e m1 hfe l h1 with h3 | h3
            · exact Or.inl h3
            · exact Or.inr h3
          · exact Or.inr h1

theorem process_package_mem_mand {cfg : Config} (hm : cfg.mandatory_pkg = true)
    (ho : cfg.optional_pkg = false) {ly pl lf : String}
    {probe : String → Option String} {master out : List Loop} {entry : PkgEntry}
    (h : process_package cfg ly pl lf probe master entry = .ok out) :
    ∀ l ∈ out, l ∈ master ∨ l.pkg_mandatory = true := by
  simp only [process_package] at h
  cases hseg : marker_segment (resolved_url cfg ly entry) with
  | none =>
      rw [hseg] at h
      exact Except.noConfusion h
  | some seg =>
      rw [hseg] at h
      have hout : filter_insert cfg master (resolved_name entry)
          (resolved_url cfg ly entry) (entry.isMandatory.getD false)
          (resolve_size probe (resolved_url cfg ly entry) entry.downloadSize)
          (lastN 4 seg) lf pl = out := by
        injection h
      intro l hl
      rw [← hout, filter_insert_mand hm ho] at hl
      split at hl
      · next hmand =>
          rcases mem_add_loop hl with h1 | h1
          · exact Or.inl h1
          · right
            rw [h1]
            exact hmand
      · exact Or.inl hl

theorem process_package_mem_opt {cfg : Config} (ho : cfg.optional_pkg = true)
    (hm : cfg.mandatory_pkg = false) {ly pl lf : String}
    {probe : String → Option String} {master out : List Loop} {entry : PkgEntry}
    (h : process_package cfg ly pl lf probe master entry = .ok out) :
    ∀ l ∈ out, l ∈ master ∨ l.pkg_mandatory = false := by
  simp only [process_package] at h
  cases hseg : marker_segment (resolved_url cfg ly entry) with
  | none =>
      rw [hseg] at h
      exact Except.noConfusion h
  | some seg =>
      rw [hseg] at h
      have hout : filter_insert cfg master (resolved_name entry)
          (resolved_url cfg ly entry) (entry.isMandatory.getD false)
          (resolve_size probe (resolved_url cfg ly entry) entry.downloadSize)
          (lastN 4 seg) lf pl = out := by
        injection h
      intro l hl
      rw [← hout, filter_insert_opt hm ho] at hl
      split at hl
      · exact Or.inl hl
      · next hmand =>
          rcases mem_add_loop hl with h1 | h1
          · exact Or.inl h1
          · right
            rw [h1]
            simpa using hmand

theorem process_package_flags_none {cfg : Config}
    (hm : cfg.mandatory_pkg = false) (ho : cfg.optional_pkg = false)
    (ly pl lf : String) (probe : String → Option String) (master : List Loop)
    (entry : PkgEntry) :
    process_package cfg ly pl lf probe master entry =
      process_package_unfiltered cfg ly pl lf probe master entry := by
  simp only [process_package, process_package_unfiltered, unfiltered_insert]
  cases hseg : marker_segment (resolved_url cfg ly entry) with
  | none => rfl
  | some seg =>
      simp only []
      rw [filter_insert_none hm ho]

theorem foldlM_congr_except
    {f g : List Loop → PkgEntry → Except Unit (List Loop)}
    (hfg : ∀ m e, f m e = g m e) :
    ∀ (pkgs : List PkgEntry) (master : List Loop),
      pkgs.foldlM f master = pkgs.foldlM g master := by
  intro pkgs
  induction pkgs with
  | nil => intro master; rfl
  | cons e es ih =>
      intro master
      rw [List.foldlM_cons, List.foldlM_cons, hfg]
      cases g master e with
      | error u => rfl
      | ok m1 => exact ih m1

/-! ## C3: mandatory/optional filter correctness -/

/-- C3: in a mandatory-only run every record `process_plist` inserts is
mandatory; in an optional-only run every inserted record is optional; with
neither flag set the run equals the unfiltered insertion of every entry. -/
theorem C3_process_plist_filter (cfg : Config) (ly pl : String)
    (probe : String → Option String) (pkgs : List PkgEntry)
    (master out : List Loop) :
    (process_plist cfg ly pl probe pkgs master = Except.ok out →
      ((cfg.mandatory_pkg = true → cfg.optional_pkg = false →
          ∀ l ∈ out, l ∈ master ∨ l.pkg_mandatory = true)
       ∧ (cfg.optional_pkg = true → cfg.mandatory_pkg = false →
          ∀ l ∈ out, l ∈ master ∨ l.pkg_mandatory = false)))
    ∧ (cfg.mandatory_pkg = false → cfg.optional_pkg = false →
        process_plist cfg ly pl probe pkgs master =
          process_plist_unfiltered cfg ly pl probe pkgs master) := by
  constructor
  · intro h
    simp only [process_plist] at h
    constructor
    · intro hm ho
      exact foldlM_except_mem _
        (fun m e out1 h1 => process_package_mem_mand hm ho h1)
        pkgs master out h
    · intro ho hm
      exact foldlM_except_mem _
        (fun m e out1 h1 => process_package_mem_opt ho hm h1)
        pkgs master out h
  · intro hm ho
    simp only [process_plist, process_plist_unfiltered]
    exact foldlM_congr_except
      (fun m e => process_package_flags_none hm ho ly
        (splitext_root pl) (removeDigits (splitext_root pl)) probe m e)
      pkgs master

/-- Witness for C3 at a concrete feed of one mandatory and one optional
entry: the record surviving a mandatory-only run is mandatory, the record
surviving an optional-only run is optional, and a run with neither flag
equals the unfiltered insertion. -/
theorem C3_process_plist_filter_witness :
    (⟨"a.pkg", "http://audiocontentdownload.apple.com/lp10_ms3_content_2016/a.pkg",
       true, SizeVal.intV 10, "2016", "garageband", "garageband1020"⟩ : Loop).pkg_mandatory = true
    ∧ (⟨"b.pkg", "http://audiocontentdownload.apple.com/lp10_ms3_content_2016/b.pkg",
       false, SizeVal.intV 20, "2016", "garageband", "garageband1020"⟩ : Loop).pkg_mandatory = false
    ∧ process_plist ⟨none, false, false⟩ "2016" "garageband1020.plist"
        (fun _ => none)
        [⟨"a.pkg", some true, .intV 10⟩, ⟨"b.pkg", none, .intV 20⟩] [] =
      process_plist_unfiltered ⟨none, false, false⟩ "2016" "garageband1020.plist"
        (fun _ => none)
        [⟨"a.pkg", some true, .intV 10⟩, ⟨"b.pkg", none, .intV 20⟩] [] := by
  refine ⟨?_, ?_, ?_⟩
  · have h := ((C3_process_plist_filter ⟨none, true, false⟩ "2016"
        "garageband1020.plist" (fun _ => none)
        [⟨"a.pkg", some true, .intV 10⟩, ⟨"b.pkg", none, .intV 20⟩] []
        [⟨"a.pkg", "http://audiocontentdownload.apple.com/lp10_ms3_content_2016/a.pkg",
          true, SizeVal.intV 10, "2016", "garageband", "garageband1020"⟩]).1 rfl).1
        rfl rfl _ (List.mem_singleton.mpr rfl)
    exact h.resolve_left (by simp)
  · have h := ((C3_process_plist_filter ⟨none, false, true⟩ "2016"
        "garageband1020.plist" (fun _ => none)
        [⟨"a.pkg", some true, .intV 10⟩, ⟨"b.pkg", none, .intV 20⟩] []
        [⟨"b.pkg", "http://audiocontentdownload.apple.com/lp10_ms3_content_2016/b.pkg",
          false, SizeVal.intV 20, "2016", "garageband", "garageband1020"⟩]).1 rfl).2
        rfl rfl _ (List.mem_singleton.mpr rfl)
    exact h.resolve_left (by simp)
  · exact (C3_process_plist_filter ⟨none, false, false⟩ "2016"
      "garageband1020.plist" (fun _ => none)
      [⟨"a.pkg", some true, .intV 10⟩, ⟨"b.pkg", none, .intV 20⟩] [] []).2 rfl rfl

/-! ## C6: legacy-path rewrite and year re-derivation -/

/-- C6: when a declared download name begins with `../`, the URL is
rewritten to the fixed legacy origin (the name minus the marker), the
record name is reduced to its base filename, and every record inserted for
that entry carries the year taken as the last four characters of the URL
segment containing the catalog marker (not the loop-variable year, which
the inserted fields do not depend on). -/
theorem C6_legacy_rewrite (cfg : Config) (ly pl lf : String)
    (probe : String → Option String) (master : List Loop) (entry : PkgEntry)
    (seg : String)
    (hleg : strStartsWith entry.downloadName "../" = true)
    (hseg : marker_segment (resolved_url cfg ly entry) = some seg) :
    resolved_url cfg ly entry =
      "http://audiocontentdownload.apple.com/" ++ strDrop entry.downloadName 3
    ∧ resolved_name entry = basename entry.downloadName
    ∧ ∀ out, process_package cfg ly pl lf probe master entry = Except.ok out →
        ∀ l ∈ out, l ∈ master ∨
          (l.pkg_year = lastN 4 seg
           ∧ l.pkg_name = basename entry.downloadName
           ∧ l.pkg_url =
               "http://audiocontentdownload.apple.com/" ++
                 strDrop entry.downloadName 3) := by
  have hurl : resolved_url cfg ly entry =
      "http://audiocontentdownload.apple.com/" ++ strDrop entry.downloadName 3 := by
    simp [resolved_url, hleg]
  have hname : resolved_name entry = basename entry.downloadName := by
    simp [resolved_name, hleg]
  refine ⟨hurl, hname, ?_⟩
  intro out h l hl
  simp only [process_package] at h
  rw [hseg] at h
  have hout : filter_insert cfg master (resolved_name entry)
      (resolved_url cfg ly entry) (entry.isMandatory.getD false)
      (resolve_size probe (resolved_url cfg ly entry) entry.downloadSize)
      (lastN 4 seg) lf pl = out := by
    injection h
  rw [← hout] at hl
  rcases mem_filter_insert hl with h1 | h1
  · exact Or.inl h1
  · right
    rw [h1]
    exact ⟨rfl, hname, hurl⟩

/-- Witness for C6 at the concrete legacy name
`../lp10_ms3_content_2013/bar.pkg` processed under loop year `2016`: the
inserted record has year `2013` (the last four characters of the catalog
marker segment), basename name `bar.pkg`, and the legacy origin URL. -/
theorem C6_legacy_rewrite_witness :
    (⟨"bar.pkg",
      "http://audiocontentdownload.apple.com/lp10_ms3_content_2013/bar.pkg",
      false, SizeVal.intV 7, "2013", "garageband", "garageband1020"⟩ : Loop).pkg_year
        = lastN 4 "lp10_ms3_content_2013"
    ∧ (⟨"bar.pkg",
      "http://audiocontentdownload.apple.com/lp10_ms3_content_2013/bar.pkg",
      false, SizeVal.intV 7, "2013", "garageband", "garageband1020"⟩ : Loop).pkg_name
        = basename "../lp10_ms3_content_2013/bar.pkg"
    ∧ (⟨"bar.pkg",
      "http://audiocontentdownload.apple.com/lp10_ms3_content_2013/bar.pkg",
      false, SizeVal.intV 7, "2013", "garageband", "garageband1020"⟩ : Loop).pkg_url
        = "http://audiocontentdownload.apple.com/" ++
            strDrop "../lp10_ms3_content_2013/bar.pkg" 3 := by
  have h := (C6_legacy_rewrite ⟨none, false, false⟩ "2016" "garageband1020"
      "garageband" (fun _ => none) []
      ⟨"../lp10_ms3_content_2013/bar.pkg", none, .intV 7⟩
      "lp10_ms3_content_2013" rfl rfl).2.2
      [⟨"bar.pkg",
        "http://audiocontentdownload.apple.com/lp10_ms3_content_2013/bar.pkg",
        false, SizeVal.intV 7, "2013", "garageband", "garageband1020"⟩] rfl
      _ (List.mem_singleton.mpr rfl)
  exact h.resolve_left (by simp)

/-! ## C8: Content-Length probe failure falls back to the declared size -/

/-- C8: when the metadata size probe for the resolved URL fails, package
processing still succeeds (no abort) and the record is inserted with the
catalog-declared `DownloadSize`. -/
theorem C8_size_probe_fallback (cfg : Config) (ly pl lf : String)
    (probe : String → Option String) (master : List Loop) (entry : PkgEntry)
    (seg : String)
    (hprobe : probe (resolved_url cfg ly entry) = none)
    (hseg : marker_segment (resolved_url cfg ly entry) = some seg) :
    process_package cfg ly pl lf probe master entry =
      Except.ok (filter_insert cfg master (resolved_name entry)
        (resolved_url cfg ly entry) (entry.isMandatory.getD false)
        entry.downloadSize (lastN 4 seg) lf pl) := by
  simp only [process_package, resolve_size]
  rw [hseg, hprobe]

/-- Witness for C8 at a concrete entry whose probe fails: processing
returns `ok` and the record carries the declared plist size (with the
thousands-separator dots stripped by `add_loop`). -/
theorem C8_size_probe_fallback_witness :
    process_package ⟨none, false, false⟩ "2016" "gb" "gb" (fun _ => none) []
        ⟨"c.pkg", none, .strV "123.456"⟩ =
      Except.ok
        [⟨"c.pkg",
          "http://audiocontentdownload.apple.com/lp10_ms3_content_2016/c.pkg",
          false, SizeVal.strV "123456", "2016", "gb", "gb"⟩] := by
  have h := C8_size_probe_fallback ⟨none, false, false⟩ "2016" "gb" "gb"
    (fun _ => none) [] ⟨"c.pkg", none, .strV "123.456"⟩
    "lp10_ms3_content_2016" rfl rfl
  rw [h]
  rfl

/-! ## Dry-run lemmas -/

theorem copy_scan_dry (fs : FS) (root : String) (loop : Loop) :
    copy_scan true fs root loop = fs := by
  unfold copy_scan
  split
  · rfl
  · rfl

theorem copy_duplicate_dry (fs : FS) (root : String) (loop : Loop) :
    copy_duplicate true fs root loop = fs := by
  simp only [copy_duplicate]
  split
  · rfl
  · exact copy_scan_dry fs root loop

theorem download_dry (fs : FS) (root : String) (loop : Loop)
    (amounts chunks : List Nat) :
    download true fs root loop amounts chunks =
      { fs := fs,
        amounts := amounts ++
          (if truthy (file_exists fs loop
              (pjoin (local_directory root loop) loop.pkg_name)) = true
           then [] else [sizeNat loop.pkg_size]),
        events := [] } := by
  simp only [download, Bool.not_true]
  cases htr : truthy (file_exists fs loop
      (pjoin (local_directory root loop) loop.pkg_name)) <;>
    simp [htr]

theorem main_step_dry (root : String) (net : Loop → List Nat) (fs : FS)
    (amt : List Nat) (l : Loop) :
    main_step true root net { fs := fs, amounts := amt } l =
      { fs := fs,
        amounts := amt ++
          (if (!truthy (duplicate_file fs l) &&
              !truthy (file_exists fs l
                (pjoin (local_directory root l) l.pkg_name))) = true
           then [sizeNat l.pkg_size] else []) } := by
  simp only [main_step]
  by_cases hd : truthy (duplicate_file fs l) = true
  · rw [if_pos hd]
    simp [copy_duplicate_dry, hd]
  · rw [if_neg hd]
    have hd' : truthy (duplicate_file fs l) = false := by
      simpa using hd
    rw [download_dry]
    cases htr : truthy (file_exists fs l
        (pjoin (local_directory root l) l.pkg_name)) <;>
      simp [hd', htr]

theorem main_run_dry_aux (root : String) (net : Loop → List Nat) (fs : FS) :
    ∀ (loops : List Loop) (amt : List Nat),
      loops.foldl (main_step true root net) { fs := fs, amounts := amt } =
        { fs := fs,
          amounts := amt ++
            (loops.filter (fun l =>
              !truthy (duplicate_file fs l) &&
              !truthy (file_exists fs l
                (pjoin (local_directory root l) l.pkg_name)))).map
              (fun l => sizeNat l.pkg_size) } := by
  intro loops
  induction loops with
  | nil => intro amt; simp
  | cons l ls ih =>
      intro amt
      rw [List.foldl_cons, main_step_dry, ih]
      cases hc : (!truthy (duplicate_file fs l) &&
          !truthy (file_exists fs l
            (pjoin (local_directory root l) l.pkg_name))) <;>
        simp [List.filter_cons, hc]

/-! ## C7: dry-run purity and the reported byte total -/

/-- C7 counterexample: in a pre-existing tree holding a complete copy of
the entry in a scanned directory (but not at the local path of the entry),
the dry run routes the entry through the duplicate/copy path and reports a
zero byte total, while the sum of declared sizes of entries not complete at
their local path is 100; with the complete copy in the second scanned
directory instead, the dry run reports 100 while the sum over entries with
no complete copy anywhere in the tree is 0.  Either reading of "not
already complete in the pre-existing download tree" is therefore refuted. -/
theorem C7_dry_run_total_counterexample :
    ¬ ((main_run true "r" ⟨["r/d1/e/f"], [("r/d1/e/f/x.pkg", ⟨100, 4096⟩)], 4096⟩
          [⟨"x.pkg", "u", false, .intV 100, "2016", "g", "p2"⟩]
          (fun _ => [])).amounts.sum =
        (([(⟨"x.pkg", "u", false, .intV 100, "2016", "g", "p2"⟩ : Loop)].filter
            (fun l => !truthy (file_exists
              ⟨["r/d1/e/f"], [("r/d1/e/f/x.pkg", ⟨100, 4096⟩)], 4096⟩ l
              (pjoin (local_directory "r" l) l.pkg_name)))).map
          (fun l => sizeNat l.pkg_size)).sum)
    ∧ ¬ ((main_run true "r"
          ⟨["r/d1/e/f", "r/d2/e/f"], [("r/d2/e/f/x.pkg", ⟨100, 4096⟩)], 4096⟩
          [⟨"x.pkg", "u", false, .intV 100, "2016", "g", "p2"⟩]
          (fun _ => [])).amounts.sum =
        (([(⟨"x.pkg", "u", false, .intV 100, "2016", "g", "p2"⟩ : Loop)].filter
            (fun l => !((["r/d1/e/f", "r/d2/e/f"] : List String).any
              (fun p => truthy (file_exists
                ⟨["r/d1/e/f", "r/d2/e/f"], [("r/d2/e/f/x.pkg", ⟨100, 4096⟩)], 4096⟩
                l (pjoin p l.pkg_name)))))).map
          (fun l => sizeNat l.pkg_size)).sum) := by
  constructor
  · decide
  · decide

/-- C7 amended: with dry-run enabled the download loop leaves the
filesystem untouched (no directory created, no file written), and the
reported byte total is the sum of declared sizes of exactly those entries
for which the first-directory duplicate check reports not found and whose
file at the derived local path is not complete. -/
theorem C7_dry_run_frame (root : String) (fs : FS) (loops : List Loop)
    (net : Loop → List Nat) :
    (main_run true root fs loops net).fs = fs
    ∧ (main_run true root fs loops net).amounts.sum =
        ((loops.filter (fun l =>
            !truthy (duplicate_file fs l) &&
            !truthy (file_exists fs l
              (pjoin (local_directory root l) l.pkg_name)))).map
          (fun l => sizeNat l.pkg_size)).sum := by
  unfold main_run
  rw [main_run_dry_aux]
  simp

/-! ## C9: ledger records the declared size, not the streamed bytes -/

/-- C9 counterexample: a completed stream of 50 bytes (chunks 30 and 20)
for an entry declaring 100 bytes does not produce the trace
close/record-bytes-transferred/pause — the recorded amount is the declared
size, not the transferred byte count. -/
theorem C9_download_ledger_counterexample :
    ¬ ((download false ⟨[], [], 4096⟩ "r"
          ⟨"x.pkg", "u", false, .intV 100, "2016", "g", "p2"⟩ [] [30, 20]).events =
        [.closeReq, .recordAmount (([30, 20] : List Nat).sum),
         .pauseUniform 1 2]) := by
  decide

/-- C9 amended: on completion of a download stream for an entry whose
target file was not already complete, the orchestrator closes the network
resource, records the declared size of the entry (`float(loop.pkg_size)`) into
the ledger, and pauses a random interval of 1 to 2 time units, in that
order. -/
theorem C9_download_ledger (fs : FS) (root : String) (loop : Loop)
    (amounts chunks : List Nat)
    (h : truthy (file_exists fs loop
      (pjoin (local_directory root loop) loop.pkg_name)) = false) :
    (download false fs root loop amounts chunks).events =
      [.closeReq, .recordAmount (sizeNat loop.pkg_size), .pauseUniform 1 2]
    ∧ (download false fs root loop amounts chunks).amounts =
        amounts ++ [sizeNat loop.pkg_size] := by
  simp [download, file_exists_mkdirs, h]

/-- Witness for C9 (amended) at a concrete incomplete target. -/
theorem C9_download_ledger_witness :
    (download false ⟨[], [], 4096⟩ "r"
        ⟨"x.pkg", "u", false, .intV 100, "2016", "g", "p2"⟩ [] [30, 20]).events =
      [.closeReq, .recordAmount (sizeNat (SizeVal.intV 100)), .pauseUniform 1 2]
    ∧ (download false ⟨[], [], 4096⟩ "r"
        ⟨"x.pkg", "u", false, .intV 100, "2016", "g", "p2"⟩ [] [30, 20]).amounts =
      [] ++ [sizeNat (SizeVal.intV 100)] :=
  C9_download_ledger ⟨[], [], 4096⟩ "r"
    ⟨"x.pkg", "u", false, .intV 100, "2016", "g", "p2"⟩ [] [30, 20] (by decide)

/-! ## C10: a missing file yields None, treated as incomplete by callers -/

/-- C10: when no file exists at the derived local path, `file_exists`
returns `None` (no boolean), its truthiness is false, and the callers treat
that as incomplete: `duplicate_file` reports `False` when the first scanned
directory lacks the file, the dry-run `download` counts the entry as to be
downloaded, and `copy_duplicate` proceeds to its duplicate scan instead of
skipping. -/
theorem C10_missing_file_none (fs : FS) (root : String) (loop : Loop)
    (amounts chunks : List Nat)
    (h : lookupFile fs (pjoin (local_directory root loop) loop.pkg_name) = none) :
    file_exists fs loop (pjoin (local_directory root loop) loop.pkg_name) = none
    ∧ truthy (file_exists fs loop
        (pjoin (local_directory root loop) loop.pkg_name)) = false
    ∧ (∀ p rest, fs.leafDirs = p :: rest →
        lookupFile fs (pjoin p loop.pkg_name) = none →
        duplicate_file fs loop = some false)
    ∧ (download true fs root loop amounts chunks).amounts =
        amounts ++ [sizeNat loop.pkg_size]
    ∧ (∀ dry, copy_duplicate dry fs root loop = copy_scan dry fs root loop) := by
  have hfe : file_exists fs loop
      (pjoin (local_directory root loop) loop.pkg_name) = none := by
    simp [file_exists, h]
  refine ⟨hfe, by simp [hfe, truthy], ?_, ?_, ?_⟩
  · intro p rest hl hlk
    simp [duplicate_file, hl, file_exists, hlk, truthy]
  · simp [download, hfe, truthy]
  · intro dry
    simp [copy_duplicate, hfe, truthy]

/-- Witness for C10 at a concrete state with no file at the target path and
an empty first scanned directory. -/
theorem C10_missing_file_none_witness :
    file_exists ⟨["r/a/b/c"], [], 4096⟩
        ⟨"x.pkg", "u", false, .intV 5, "2016", "g", "p"⟩
        (pjoin (local_directory "r" ⟨"x.pkg", "u", false, .intV 5, "2016", "g", "p"⟩)
          "x.pkg") = none
    ∧ duplicate_file ⟨["r/a/b/c"], [], 4096⟩
        ⟨"x.pkg", "u", false, .intV 5, "2016", "g", "p"⟩ = some false
    ∧ (download true ⟨["r/a/b/c"], [], 4096⟩ "r"
        ⟨"x.pkg", "u", false, .intV 5, "2016", "g", "p"⟩ [] []).amounts =
      [] ++ [sizeNat (SizeVal.intV 5)] := by
  have h := C10_missing_file_none ⟨["r/a/b/c"], [], 4096⟩ "r"
    ⟨"x.pkg", "u", false, .intV 5, "2016", "g", "p"⟩ [] [] (by decide)
  exact ⟨h.1, h.2.2.1 "r/a/b/c" [] rfl (by decide), h.2.2.2.1⟩

/-- Witness for C2 (amended) at a concrete state whose first scanned
directory holds a satisfying copy. -/
theorem C2_duplicate_file_first_dir_witness :
    truthy (duplicate_file ⟨["r/a/b/c"], [("r/a/b/c/q.pkg", ⟨10, 4⟩)], 4⟩
        ⟨"q.pkg", "u", false, .intV 10, "2016", "g", "p"⟩) = true :=
  (C2_duplicate_file_first_dir _ _).mpr ⟨"r/a/b/c", rfl, by decide⟩

end AppleLoops
